import Mathlib

/-!
Verification of the Pippin task-graph execution engine against its
natural-language specification.

The definitions below are shallow embeddings of the Python sources under
`pippin/`: `manager.py`, `merge.py`, `biascor.py`, `cosmomc.py`,
`create_cov.py` and `classifiers/supernnova.py`.  Filesystem state
(existence of done markers, log files, the stored hash) is passed
explicitly as arguments; subprocess submissions and directory wipes are
recorded as boolean fields of explicit result records.  The base class
`pippin/task.py` is not part of the sources available here; the few
members of it that matter (`check_for_job`, the FINISHED constants, the
stored-hash convention) are modelled from the specification and are
marked as such in their doc comments.
-/

/-- `charsPrefix needle l` is true when `needle` is a prefix of `l`. -/
def charsPrefix : List Char → List Char → Bool
  | [], _ => true
  | _ :: _, [] => false
  | a :: as, b :: bs => a == b && charsPrefix as bs

/-- `charsContains needle l` is true when `needle` occurs as a
contiguous run inside `l`. -/
def charsContains (needle : List Char) : List Char → Bool
  | [] => needle.isEmpty
  | c :: rest => charsPrefix needle (c :: rest) || charsContains needle rest

/-- Substring containment, the shallow embedding of the Python operator
`needle in haystack` on strings. -/
def strContains (haystack needle : String) : Bool :=
  charsContains needle.data haystack.data

/-- Return values of a `_check_completion` implementation.  The sources
return `Task.FINISHED_SUCCESS`, `Task.FINISHED_FAILURE` (constants of the
base class `task.py`, not in the sources here), a plain integer (the
convention for a still-running job count, for example `return 4` in
`cosmomc.py`), or fall off the end of the function (Python `None`, the
`pyNone` constructor). -/
inductive CheckRet where
  | finSuccess
  | finFailure
  | stillRunning (n : Nat)
  | pyNone
deriving DecidableEq, Repr

/-- Modelled from the spec: `check_for_job` lives in the base class
`pippin/task.py`, which is not among the sources here; only its callers
(`create_cov.py` line 125, `biascor.py` line 195, `supernnova.py` line
346) are.  Spec section 4.2: with no done-marker, a job whose name is
still in the live-job set is reported as still running, and a job whose
name is absent from the live-job set is reported as `FINISHED_FAILURE`
(the job vanished without writing its completion contract). -/
def check_for_job (squeue : List String) (job_name : String) : CheckRet :=
  if squeue.contains job_name then CheckRet.stillRunning 1 else CheckRet.finFailure

/-- A line of a Merger log is fatal when it holds the substring ERROR or
ABORT (`merge.py` line 86). -/
def lineFatal (line : String) : Bool :=
  strContains line "ERROR" || strContains line "ABORT"

/-- Result of `Merger._check_completion`: the returned value and the
stored hash after the call (`merge.py` line 93 removes the hash file on a
fatal log line). -/
structure MergerCheckRes where
  ret : CheckRet
  hashAfter : Option String
deriving DecidableEq, Repr

/-- Shallow embedding of `Merger._check_completion` (`merge.py` lines
48-98).  `doneExists`, `origExists` and `logExists` are the existence of
`done.txt`, of `FITOPT000.FITRES.gz` and of `output.log`; `logLines` are
the lines of the log; `storedHash` is the persisted hash.  The function
never looks at the `squeue` argument of the source, so that argument is
omitted.  The file copying and symlinking of the `original_output`
branch touches neither the returned value nor the hash and is not
modelled.  With a log present and free of fatal lines the source falls
off the end of the function, returning Python `None`. -/
def Merger.check_completion (doneExists origExists logExists : Bool)
    (logLines : List String) (storedHash : Option String) : MergerCheckRes :=
  if doneExists then
    ⟨CheckRet.finSuccess, storedHash⟩
  else if origExists then
    ⟨CheckRet.finSuccess, storedHash⟩
  else if logExists then
    if logLines.any lineFatal then
      ⟨CheckRet.finFailure, none⟩
    else
      ⟨CheckRet.pyNone, storedHash⟩
  else
    ⟨CheckRet.finFailure, storedHash⟩

/-- Side effects and returned value of `Merger._run`. -/
structure MergerRunRes where
  wiped : Bool
  submittedJob : Bool
  savedHash : Option String
  ret : Bool
deriving DecidableEq, Repr

/-- Shallow embedding of `Merger._run` (`merge.py` lines 100-115).
`old_hash` is the content of the hash store (`get_old_hash` of the
missing base class; by spec section 3, absence of the hash file means
`none`); `new_hash` is the digest of the assembled command, taken here
as an argument since the claims only compare it for equality.  When the
hash is stale the source wipes the output directory, recreates it, saves
the new hash and launches `combine_fitres`; either way it returns
`True`. -/
def Merger.run (force_refresh : Bool) (old_hash : Option String)
    (new_hash : String) : MergerRunRes :=
  if force_refresh || (some new_hash != old_hash) then
    ⟨true, true, some new_hash, true⟩
  else
    ⟨false, false, old_hash, true⟩

/-- Result of `BiasCor._check_completion`: the returned value and
whether `generate_w_summary` was invoked. -/
structure BiascorCheckRes where
  ret : CheckRet
  calledGenWSummary : Bool
deriving DecidableEq, Repr

/-- Shallow embedding of `BiasCor._check_completion` (`biascor.py` lines
161-195).  `doneContents` is the content of `ALL.DONE`;
`wSummaryExists` the existence of `w_summary.csv`; `genWSummaryOk` the
outcome of `generate_w_summary` (`biascor.py` lines 114-144, a try/except
returning a boolean); `mergeLogExists` the existence of `MERGE.LOG`.
`check_issues` scans logs for diagnostics and then `kill_and_fail`
returns `FINISHED_FAILURE` (`biascor.py` lines 146-159).  The wfit and
M0DIF scanning in the missing-summary branch only logs and is not
modelled.  Note lines 183-187: whether `generate_w_summary` succeeds or
not, the branch returns `FINISHED_SUCCESS`. -/
def BiasCor.check_completion (doneExists : Bool) (doneContents : String)
    (wSummaryExists : Bool) (genWSummaryOk : Bool) (mergeLogExists : Bool)
    (squeue : List String) (job_name : String) : BiascorCheckRes :=
  if doneExists then
    if strContains doneContents "FAIL" then
      ⟨CheckRet.finFailure, false⟩
    else if !wSummaryExists then
      if genWSummaryOk then
        ⟨CheckRet.finSuccess, true⟩
      else
        ⟨CheckRet.finSuccess, true⟩
    else
      ⟨CheckRet.finSuccess, false⟩
  else if !mergeLogExists then
    ⟨CheckRet.finFailure, false⟩
  else
    ⟨check_for_job squeue job_name, false⟩

/-- Side effects and returned value of `BiasCor._run` together with its
helper `write_input`. -/
structure BiascorRunRes where
  wipedOutputDir : Bool
  wroteInput : Bool
  savedHash : Option String
  regenerating : Bool
  submittedJob : Bool
  ret : Bool
deriving DecidableEq, Repr

/-- Shallow embedding of `BiasCor.write_input` (`biascor.py` lines
203-314), reduced to its hash gate: the assembled input text is taken as
already hashed into `new_hash`.  When stale it wipes the output
directory, writes the input file, saves the hash and returns `True`;
otherwise it returns `False`. -/
def BiasCor.write_input (force_refresh : Bool) (old_hash : Option String)
    (new_hash : String) : Bool × Option String :=
  if force_refresh || (some new_hash != old_hash) then
    (true, some new_hash)
  else
    (false, old_hash)

/-- Shallow embedding of `BiasCor._run` (`biascor.py` lines 316-331): it
calls `write_input` and submits `submit_batch_jobs.sh` exactly when that
returned `True`; either way `_run` returns `True`. -/
def BiasCor.run (force_refresh : Bool) (old_hash : Option String)
    (new_hash : String) : BiascorRunRes :=
  let wi := BiasCor.write_input force_refresh old_hash new_hash
  ⟨wi.1, wi.1, wi.2, wi.1, wi.1, true⟩

/-- Shallow embedding of `CosmoMC._check_completion` (`cosmomc.py` lines
46-55).  With a done file present the content decides success or
failure; with no done file the source returns the literal integer 4 (a
still-running count) without ever consulting the live-job set, so the
`squeue` and `job_name` arguments are unused just as in the source. -/
def CosmoMC.check_completion (doneExists : Bool) (doneContents : String)
    (squeue : List String) (job_name : String) : CheckRet :=
  if doneExists then
    if strContains doneContents "FAILURE" then CheckRet.finFailure
    else CheckRet.finSuccess
  else
    CheckRet.stillRunning 4

/-- Side effects and returned value of the `_run` of `CosmoMC` and of
`CreateCov`. -/
structure RunEffects where
  wipedOutputDir : Bool
  recreatedOutputDir : Bool
  wroteInputs : Bool
  savedHash : Option String
  submittedJob : Bool
  ret : Bool
deriving DecidableEq, Repr

/-- Shallow embedding of `CosmoMC._run` (`cosmomc.py` lines 60-88).
`new_hash` is the digest of the formatted slurm script.  When stale the
source wipes and recreates the output directory, saves the new hash,
writes `slurm.job` and calls `sbatch`; either way it returns `True`. -/
def CosmoMC.run (force_refresh : Bool) (old_hash : Option String)
    (new_hash : String) : RunEffects :=
  if force_refresh || (some new_hash != old_hash) then
    ⟨true, true, true, some new_hash, true, true⟩
  else
    ⟨false, false, false, old_hash, false, true⟩

/-- Shallow embedding of `CreateCov._check_completion` (`create_cov.py`
lines 115-125).  With a done file present the content decides success or
failure; with no done file the source delegates to
`check_for_job(squeue, self.job_name)`. -/
def CreateCov.check_completion (doneExists : Bool) (doneContents : String)
    (squeue : List String) (job_name : String) : CheckRet :=
  if doneExists then
    if strContains doneContents "FAILURE" then CheckRet.finFailure
    else CheckRet.finSuccess
  else
    check_for_job squeue job_name

/-- Shallow embedding of `CreateCov._run` (`create_cov.py` lines
151-192).  `new_hash` is the digest of the input text, the serialised
sys scales and the formatted slurm script.  When stale the source wipes
and recreates the output directory, saves the new hash, writes the sys
scale file, the input file and `slurm.job`, and calls `sbatch`; either
way it returns `True`. -/
def CreateCov.run (force_refresh : Bool) (old_hash : Option String)
    (new_hash : String) : RunEffects :=
  if force_refresh || (some new_hash != old_hash) then
    ⟨true, true, true, some new_hash, true, true⟩
  else
    ⟨false, false, false, old_hash, false, true⟩

example : (Merger.check_completion false false true ["ERROR: abort now"] (some "h")).ret
    = CheckRet.finFailure := by decide

example : (Merger.check_completion false false true ["all fine"] (some "h")).ret
    = CheckRet.pyNone := by decide

example : CosmoMC.check_completion false "" [] "cosmomc_x" = CheckRet.stillRunning 4 := by
  decide

example : CreateCov.check_completion false "" [] "x_CREATE_COV_y" = CheckRet.finFailure := by
  decide

example : (Merger.run false (some "h") "h").ret = true := by decide

/-- Association-list update, the shallow embedding of assigning one key
of the Python dict `self.output`: replace the first binding of the key,
or append a new binding. -/
def mapSet : List (String × String) → String → String → List (String × String)
  | [], k, v => [(k, v)]
  | p :: rest, k, v => if p.1 == k then (k, v) :: rest else p :: mapSet rest k v

/-- Association-list lookup, the shallow embedding of reading one key of
the Python dict `self.output`. -/
def mapGet : List (String × String) → String → Option String
  | [], _ => none
  | p :: rest, k => if p.1 == k then some p.2 else mapGet rest k

/-- Shallow embedding of `SuperNNovaClassifier._check_completion`
(`supernnova.py` lines 301-346).  `done1` and `done2` are the contents
of `done_task.txt` and `done_task2.txt` when those exist; `predExists`
and `modelExists` are the existence of `predictions.csv` and `model.pt`
in the output directory; `relocOk` is whether the relocation block
(`get_model_and_pred`, `supernnova.py` lines 103-124, plus the moves and
the predictions rewrite) runs without raising - when it raises, the
exception propagates out of `_check_completion`, modelled as
`Except.error`.  Line 343 updates `self.output` with the two artifact
paths before `FINISHED_SUCCESS` is returned. -/
def SuperNNova.check_completion (done1 done2 : Option String)
    (predExists modelExists relocOk : Bool) (output_dir : String)
    (output : List (String × String)) (squeue : List String)
    (job_base_name : String) : Except String (CheckRet × List (String × String)) :=
  if done1.isSome || done2.isSome then
    if (match done1 with | some c => strContains c "FAILURE" | none => false) then
      Except.ok (CheckRet.finFailure, output)
    else if (match done2 with | some c => strContains c "FAILURE" | none => false) then
      Except.ok (CheckRet.finFailure, output)
    else
      let new_pred_file := output_dir ++ "/predictions.csv"
      let new_model_file := output_dir ++ "/model.pt"
      if (!predExists || !modelExists) && !relocOk then
        Except.error "exception raised while relocating model or predictions"
      else
        Except.ok (CheckRet.finSuccess,
          mapSet (mapSet output "model_filename" new_model_file)
            "predictions_filename" new_pred_file)
  else
    Except.ok (check_for_job squeue job_base_name, output)

/-- A classifier task as seen by `resolve_classifier`: its name and its
probability column name.  `get_prob_column_name` is a method of the base
class `classifiers/classifier.py`, which is not among the sources here;
by spec section 4.3 it is a published secondary attribute of the task,
so it is modelled as a plain field. -/
structure PClassifier where
  name : String
  prob_column_name : String
deriving DecidableEq, Repr

/-- Outcomes of `resolve_classifier`: a resolved task, or one of the
three `Task.fail_config` calls, each carrying the data its error message
reports. -/
inductive ResolveResult where
  | ok (c : PClassifier)
  | noMatch (choices : List String)
  | multiProbMatches (n : Nat)
  | ambiguous (choices : List String)
deriving DecidableEq, Repr

/-- The exact-name filter of `resolve_classifier` (`biascor.py` line
355): `[c for c in classifier_tasks if c.name == name]`. -/
def exactMatches (classifier_tasks : List PClassifier) (name : String) :
    List PClassifier :=
  classifier_tasks.filter (fun c => c.name == name)

/-- The fallback filter of `resolve_classifier` (`biascor.py` line 358):
`[c for c in classifier_tasks if c.get_prob_column_name() == name]`. -/
def probMatches (classifier_tasks : List PClassifier) (name : String) :
    List PClassifier :=
  classifier_tasks.filter (fun c => c.prob_column_name == name)

/-- Shallow embedding of `resolve_classifier` (`biascor.py` lines
354-371).  First filter by exact name; on zero matches, refilter by
probability column name and fail on zero or several of those; on
several exact matches, collapse them when they all share one
probability column name (the source computes `list(set(choices))` and
tests its length; `List.dedup` stands for that set), otherwise fail
listing the distinct choices.  The `[]` match arms mirror the partial
indexing `task[0]` of the source and are unreachable under the guards.
Note the source computes the zero-match message choices from the
already-empty fallback list, so `noMatch` carries the map over that
empty list. -/
def resolve_classifier (classifier_tasks : List PClassifier) (name : String) :
    ResolveResult :=
  if (exactMatches classifier_tasks name).length == 0 then
    if (probMatches classifier_tasks name).length == 0 then
      ResolveResult.noMatch
        ((probMatches classifier_tasks name).map (fun c => c.prob_column_name))
    else if 1 < (probMatches classifier_tasks name).length then
      ResolveResult.multiProbMatches (probMatches classifier_tasks name).length
    else
      match probMatches classifier_tasks name with
      | c :: _ => ResolveResult.ok c
      | [] => ResolveResult.noMatch []
  else if 1 < (exactMatches classifier_tasks name).length then
    if (((exactMatches classifier_tasks name).map
        (fun c => c.prob_column_name)).dedup).length == 1 then
      match exactMatches classifier_tasks name with
      | c :: _ => ResolveResult.ok c
      | [] =>
        ResolveResult.ambiguous
          (((exactMatches classifier_tasks name).map
            (fun c => c.prob_column_name)).dedup)
    else
      ResolveResult.ambiguous
        (((exactMatches classifier_tasks name).map
          (fun c => c.prob_column_name)).dedup)
  else
    match exactMatches classifier_tasks name with
    | c :: _ => ResolveResult.ok c
    | [] => ResolveResult.noMatch []

/-- A task as seen by the scheduler loop of `manager.py`.  Python
compares task objects by identity, modelled by the `id` field;
`dependencies` lists the ids of the tasks it depends on.  `jobDone` is
ground truth metadata - whether the external job of this task has
actually reached a terminal state - recorded so that theorems can talk
about it; the scheduler code itself never reads it. -/
structure PTask where
  id : Nat
  dependencies : List Nat
  jobDone : Bool
deriving DecidableEq, Repr

/-- The body of the dependency scan of `Manager.get_task_index_to_run`
(`manager.py` lines 116-122): `can_run` is true when every dependency is
in the done list. -/
def canRun (t : PTask) (done_tasks : List PTask) : Bool :=
  t.dependencies.all (fun dep => done_tasks.any (fun d => d.id == dep))

/-- Helper for `get_task_index_to_run`: scan from position `i`. -/
def taskIndexFrom (done_tasks : List PTask) : Nat → List PTask → Option Nat
  | _, [] => none
  | i, t :: rest =>
    if canRun t done_tasks then some i else taskIndexFrom done_tasks (i + 1) rest

/-- Shallow embedding of `Manager.get_task_index_to_run` (`manager.py`
lines 115-123): the index of the first task of `tasks_to_run`, in
declaration order, all of whose dependencies are in `done_tasks`, else
`none`. -/
def get_task_index_to_run (tasks_to_run done_tasks : List PTask) : Option Nat :=
  taskIndexFrom done_tasks 0 tasks_to_run

/-- Fuelled embedding of the completion-check loop of `Manager.execute`
(`manager.py` lines 137-140):

  for i, t in enumerate(running_tasks):
      if t.check_completion:
          running_tasks.pop(i)
          done_tasks.append(t)

`t.check_completion` is an attribute access on the bound method, never a
call, so the condition is a truthy object and always holds; the loop
therefore pops unconditionally.  `pop(i)` mutates the list under the
iterator, so after popping at index `i` the next element examined is at
index `i + 1` of the shrunk list.  The fuel only bounds the iteration
count (each step shrinks the list, so `length + 1` fuel never runs
out); it keeps the recursion structural. -/
def checkPhaseAux : Nat → Nat → List PTask → List PTask → List PTask × List PTask
  | 0, _, running, done => (running, done)
  | fuel + 1, i, running, done =>
    if h : i < running.length then
      checkPhaseAux fuel (i + 1) (running.eraseIdx i) (done ++ [running.get ⟨i, h⟩])
    else
      (running, done)

/-- The completion-check phase of one poll cycle of `Manager.execute`:
returns the running list and the done list after the (buggy,
unconditional) sweep. -/
def checkPhase (running done : List PTask) : List PTask × List PTask :=
  checkPhaseAux (running.length + 1) 0 running done

/-- The mutable state of the `Manager.execute` loop: the not-yet-run
list (declaration order), the running list, the done list, and a log of
every task on which `t.execute()` was called, in call order. -/
structure SchedState where
  tasks : List PTask
  running_tasks : List PTask
  done_tasks : List PTask
  submitted : List PTask
deriving DecidableEq, Repr

/-- Shallow embedding of one iteration of the `while` loop of
`Manager.execute` (`manager.py` lines 134-151): first the
completion-check sweep, then, when the externally queried job count
`num_running` is below `max_jobs`, submit the first ready task if any
(pop it from the not-yet-run list, append it to the running list, call
`t.execute()`).  The inner `none` arm of the index lookup is unreachable
because the returned index is always in range. -/
def executeCycle (num_running max_jobs : Nat) (s : SchedState) : SchedState :=
  let rd := checkPhase s.running_tasks s.done_tasks
  let running1 := rd.1
  let done1 := rd.2
  if num_running < max_jobs then
    match get_task_index_to_run s.tasks done1 with
    | some i =>
      match s.tasks[i]? with
      | some t => ⟨s.tasks.eraseIdx i, running1 ++ [t], done1, s.submitted ++ [t]⟩
      | none => ⟨s.tasks, running1, done1, s.submitted⟩
    | none => ⟨s.tasks, running1, done1, s.submitted⟩
  else
    ⟨s.tasks, running1, done1, s.submitted⟩

example :
    resolve_classifier [⟨"a", "PROB_X"⟩, ⟨"a", "PROB_X"⟩] "a"
      = ResolveResult.ok ⟨"a", "PROB_X"⟩ := by decide

example :
    resolve_classifier [⟨"a", "PROB_X"⟩, ⟨"a", "PROB_Y"⟩] "a"
      = ResolveResult.ambiguous ["PROB_X", "PROB_Y"] := by decide

example :
    resolve_classifier [⟨"a", "PROB_X"⟩, ⟨"b", "PROB_Y"⟩] "PROB_Y"
      = ResolveResult.ok ⟨"b", "PROB_Y"⟩ := by decide

example : get_task_index_to_run [⟨0, [7], false⟩, ⟨1, [], false⟩] [] = some 1 := by decide

example :
    (executeCycle 0 10 ⟨[⟨0, [], false⟩, ⟨1, [0], false⟩], [], [], []⟩).submitted
      = [⟨0, [], false⟩] := by decide

example :
    (executeCycle 0 10 (executeCycle 0 10 ⟨[⟨0, [], false⟩, ⟨1, [0], false⟩], [], [], []⟩)).submitted
      = [⟨0, [], false⟩, ⟨1, [0], false⟩] := by decide

/-- `check_for_job` never reports success: by spec section 4.2 the only
success channel is the done-marker. -/
lemma check_for_job_ne_finSuccess (squeue : List String) (job_name : String) :
    check_for_job squeue job_name ≠ CheckRet.finSuccess := by
  unfold check_for_job
  split <;> simp

lemma mapGet_mapSet_self (m : List (String × String)) (k v : String) :
    mapGet (mapSet m k v) k = some v := by
  induction m with
  | nil => simp [mapSet, mapGet]
  | cons p rest ih =>
    cases hpk : (p.1 == k) with
    | true => simp [mapSet, mapGet, hpk]
    | false => simp [mapSet, mapGet, hpk, ih]

lemma mapGet_mapSet_ne (m : List (String × String)) (k v k' : String)
    (h : k' ≠ k) : mapGet (mapSet m k v) k' = mapGet m k' := by
  have hkk : (k == k') = false := by
    simp
    exact fun he => h he.symm
  induction m with
  | nil => simp [mapSet, mapGet, hkk]
  | cons p rest ih =>
    cases hpk : (p.1 == k) with
    | true =>
      have hp1 : p.1 = k := by simpa using hpk
      simp [mapSet, mapGet, hpk, hp1, hkk]
    | false => simp [mapSet, mapGet, hpk, ih]

lemma dedup_all_eq {α : Type} [DecidableEq α] (a : α) :
    ∀ l : List α, l ≠ [] → (∀ x ∈ l, x = a) → l.dedup = [a] := by
  intro l
  induction l with
  | nil => intro h _; exact absurd rfl h
  | cons b t ih =>
    intro _ hall
    have hb : b = a := hall b (List.mem_cons_self b t)
    cases t with
    | nil => simp [hb]
    | cons c t' =>
      have ht : (c :: t').dedup = [a] :=
        ih (by simp) (fun x hx => hall x (List.mem_cons_of_mem b hx))
      have hc : c = a := hall c (by simp)
      subst hb
      rw [List.dedup_cons_of_mem, ht]
      rw [hc]
      simp

lemma two_le_length_of_mem_ne {α : Type} {l : List α} {a b : α}
    (ha : a ∈ l) (hb : b ∈ l) (hne : a ≠ b) : 2 ≤ l.length := by
  cases l with
  | nil => cases ha
  | cons x t =>
    cases t with
    | nil =>
      simp at ha hb
      exact absurd (ha.trans hb.symm) hne
    | cons y t' => simp

/-- Full characterisation of `taskIndexFrom`: a returned index counts
from the scan start, points at a ready task, and every earlier position
holds a task that is not ready. -/
lemma taskIndexFrom_spec (done : List PTask) :
    ∀ (l : List PTask) (k i : Nat), taskIndexFrom done k l = some i →
      k ≤ i ∧ (∃ t, l[i - k]? = some t ∧ canRun t done = true) ∧
        ∀ j u, j < i - k → l[j]? = some u → canRun u done = false := by
  intro l
  induction l with
  | nil => intro k i h; simp [taskIndexFrom] at h
  | cons t rest ih =>
    intro k i h
    unfold taskIndexFrom at h
    by_cases hc : canRun t done = true
    · rw [if_pos hc] at h
      injection h with h'
      subst h'
      refine ⟨Nat.le_refl k, ⟨t, by simp [Nat.sub_self], hc⟩, ?_⟩
      intro j u hj _
      omega
    · rw [if_neg hc] at h
      obtain ⟨hki, ⟨u, hu, hcu⟩, hall⟩ := ih (k + 1) i h
      have hik : i - k = (i - (k + 1)) + 1 := by omega
      refine ⟨by omega, ⟨u, ?_, hcu⟩, ?_⟩
      · rw [hik]
        simpa using hu
      · intro j v hj hv
        cases j with
        | zero =>
          simp at hv
          subst hv
          exact Bool.eq_false_iff.mpr hc
        | succ j' =>
          simp at hv
          exact hall j' v (by omega) hv

/-- Characterisation of `get_task_index_to_run`: a returned index points
at a ready task and is the earliest such position in declaration
order. -/
lemma get_task_index_to_run_spec (tasks done : List PTask) (i : Nat)
    (h : get_task_index_to_run tasks done = some i) :
    (∃ t, tasks[i]? = some t ∧ canRun t done = true) ∧
      ∀ j u, j < i → tasks[j]? = some u → canRun u done = false := by
  obtain ⟨_, ⟨t, ht, hct⟩, hall⟩ := taskIndexFrom_spec done tasks 0 i h
  refine ⟨⟨t, by simpa using ht, hct⟩, ?_⟩
  intro j u hj hu
  exact hall j u (by omega) hu

/-- When some task of the scan list is ready, the scan finds an index. -/
lemma taskIndexFrom_isSome (done : List PTask) :
    ∀ (l : List PTask) (k : Nat), (∃ t ∈ l, canRun t done = true) →
      ∃ i, taskIndexFrom done k l = some i := by
  intro l
  induction l with
  | nil =>
    intro k h
    obtain ⟨t, ht, _⟩ := h
    cases ht
  | cons t rest ih =>
    intro k h
    by_cases hc : canRun t done = true
    · exact ⟨k, by simp [taskIndexFrom, hc]⟩
    · obtain ⟨u, hu, hcu⟩ := h
      have hu' : u ∈ rest := by
        cases List.mem_cons.mp hu with
        | inl he => exact absurd (he ▸ hcu) hc
        | inr hm => exact hm
      obtain ⟨i, hi⟩ := ih (k + 1) ⟨u, hu', hcu⟩
      exact ⟨i, by simp [taskIndexFrom, hc, hi]⟩

/-- The saved hash after any non-forced `Merger._run` call with digest
`new_hash` is `new_hash` itself: either the branch just wrote it, or it
already equalled the stored one. -/
lemma merger_run_savedHash (old_hash : Option String) (new_hash : String) :
    (Merger.run false old_hash new_hash).savedHash = some new_hash := by
  unfold Merger.run
  split
  · rfl
  · next hcond =>
    simp at hcond
    simp [hcond]

/-- Same statement for `BiasCor._run` by way of `write_input`. -/
lemma biascor_run_savedHash (old_hash : Option String) (new_hash : String) :
    (BiasCor.run false old_hash new_hash).savedHash = some new_hash := by
  unfold BiasCor.run BiasCor.write_input
  split
  · rfl
  · next hcond =>
    simp at hcond
    simp [hcond]

/-- C1 (amended): with no done-marker and a job name absent from the
live-job set, the `_check_completion` of CreateCov (which delegates to
`check_for_job`) returns `FINISHED_FAILURE` and never a still-running
value; CosmoMC instead returns the still-running literal 4 whenever its
done-marker is absent, without consulting the live-job set. -/
theorem c1_vanished_job_amended (squeue : List String) (job_name contents : String)
    (h : squeue.contains job_name = false) :
    CreateCov.check_completion false contents squeue job_name = CheckRet.finFailure
    ∧ (∀ n, CreateCov.check_completion false contents squeue job_name
        ≠ CheckRet.stillRunning n)
    ∧ (∀ q c j, CosmoMC.check_completion false c q j = CheckRet.stillRunning 4) := by
  have h' : job_name ∉ squeue := by simpa using h
  refine ⟨?_, ?_, ?_⟩
  · simp [CreateCov.check_completion, check_for_job, h']
  · intro n
    simp [CreateCov.check_completion, check_for_job, h']
  · intro q c j
    simp [CosmoMC.check_completion]

/-- Witness for `c1_vanished_job_amended` at a concrete input. -/
theorem c1_vanished_job_witness :
    ([] : List String).contains "Pippin_test_CREATE_COV_cov" = false
    ∧ CreateCov.check_completion false "" [] "Pippin_test_CREATE_COV_cov"
        = CheckRet.finFailure :=
  ⟨by decide,
    (c1_vanished_job_amended [] "Pippin_test_CREATE_COV_cov" "" (by decide)).1⟩

/-- C1 counterexample: `CosmoMC._check_completion` with no done-marker
and an empty live-job set returns the still-running value 4, not
`FINISHED_FAILURE`, so the claim over every task fails. -/
theorem c1_vanished_job_counterexample :
    CosmoMC.check_completion false "" [] "cosmomc_data" = CheckRet.stillRunning 4
    ∧ CosmoMC.check_completion false "" [] "cosmomc_data" ≠ CheckRet.finFailure := by
  decide

/-- C2 (amended): a non-forced `run` whose freshly computed hash equals
the stored one performs no wipe and no submission, but returns true
(not false, as both `Merger._run` and `BiasCor._run` end in
`return True` on every path); after any first call, a repeat call with
the same digest never submits again. -/
theorem c2_idempotent_run_amended (old_hash prior_hash : Option String)
    (new_hash : String) (h : old_hash = some new_hash) :
    (Merger.run false old_hash new_hash).wiped = false
    ∧ (Merger.run false old_hash new_hash).submittedJob = false
    ∧ (Merger.run false old_hash new_hash).ret = true
    ∧ (Merger.run false (Merger.run false prior_hash new_hash).savedHash
        new_hash).submittedJob = false
    ∧ (Merger.run false (Merger.run false prior_hash new_hash).savedHash
        new_hash).ret = true
    ∧ (BiasCor.run false old_hash new_hash).wipedOutputDir = false
    ∧ (BiasCor.run false old_hash new_hash).submittedJob = false
    ∧ (BiasCor.run false old_hash new_hash).ret = true
    ∧ (BiasCor.run false (BiasCor.run false prior_hash new_hash).savedHash
        new_hash).submittedJob = false := by
  subst h
  rw [merger_run_savedHash, biascor_run_savedHash]
  simp [Merger.run, BiasCor.run, BiasCor.write_input]

/-- Witness for `c2_idempotent_run_amended` at a concrete input. -/
theorem c2_idempotent_run_witness :
    (Merger.run false (some "d41d8") "d41d8").submittedJob = false
    ∧ (Merger.run false (some "d41d8") "d41d8").ret = true :=
  ⟨(c2_idempotent_run_amended (some "d41d8") none "d41d8" rfl).2.1,
    (c2_idempotent_run_amended (some "d41d8") none "d41d8" rfl).2.2.1⟩

/-- C2 counterexample: at an input with matching hashes and no forced
refresh, `Merger._run` performs no submission yet returns true, while
the claim requires it to return false. -/
theorem c2_idempotent_run_counterexample :
    (Merger.run false (some "cmdhash") "cmdhash").submittedJob = false
    ∧ (Merger.run false (some "cmdhash") "cmdhash").ret = true
    ∧ ¬ (Merger.run false (some "cmdhash") "cmdhash").ret = false := by
  decide

/-- C3: a done-marker without the FAIL sentinel and a missing
`w_summary.csv` make `BiasCor._check_completion` invoke
`generate_w_summary`, and the returned state is `FINISHED_SUCCESS`
whether or not that regeneration succeeds; with the summary present no
regeneration is attempted. -/
theorem c3_degraded_success (doneContents : String) (mergeLogExists : Bool)
    (squeue : List String) (job_name : String)
    (h : strContains doneContents "FAIL" = false) :
    (∀ genWSummaryOk,
      BiasCor.check_completion true doneContents false genWSummaryOk
          mergeLogExists squeue job_name
        = ⟨CheckRet.finSuccess, true⟩)
    ∧ (∀ genWSummaryOk,
      BiasCor.check_completion true doneContents true genWSummaryOk
          mergeLogExists squeue job_name
        = ⟨CheckRet.finSuccess, false⟩) := by
  constructor
  · intro g
    cases g <;> simp [BiasCor.check_completion, h]
  · intro g
    cases g <;> simp [BiasCor.check_completion, h]

/-- Witness for `c3_degraded_success` at a concrete input, with the
regeneration failing. -/
theorem c3_degraded_success_witness :
    strContains "SUCCESS" "FAIL" = false
    ∧ BiasCor.check_completion true "SUCCESS" false false true [] "BBC.input"
        = ⟨CheckRet.finSuccess, true⟩ :=
  ⟨by decide,
    (c3_degraded_success "SUCCESS" true [] "BBC.input" (by decide)).1 false⟩

/-- C4: the `_run` of CreateCov and of CosmoMC wipes the output
directory, recreates it, writes the stage inputs, persists the new hash
and submits via sbatch exactly when the refresh is forced or the new
hash differs from the stored one; a forced refresh regenerates
regardless of the comparison, and otherwise none of the side effects
happen while the call still returns true. -/
theorem c4_run_regeneration_gate (force_refresh : Bool)
    (old_hash : Option String) (new_hash : String) :
    (CreateCov.run force_refresh old_hash new_hash).wipedOutputDir
        = (force_refresh || (some new_hash != old_hash))
    ∧ (CreateCov.run force_refresh old_hash new_hash).recreatedOutputDir
        = (force_refresh || (some new_hash != old_hash))
    ∧ (CreateCov.run force_refresh old_hash new_hash).wroteInputs
        = (force_refresh || (some new_hash != old_hash))
    ∧ (CreateCov.run force_refresh old_hash new_hash).submittedJob
        = (force_refresh || (some new_hash != old_hash))
    ∧ (CreateCov.run force_refresh old_hash new_hash).savedHash
        = (if force_refresh || (some new_hash != old_hash)
            then some new_hash else old_hash)
    ∧ (CreateCov.run force_refresh old_hash new_hash).ret = true
    ∧ (CosmoMC.run force_refresh old_hash new_hash).wipedOutputDir
        = (force_refresh || (some new_hash != old_hash))
    ∧ (CosmoMC.run force_refresh old_hash new_hash).recreatedOutputDir
        = (force_refresh || (some new_hash != old_hash))
    ∧ (CosmoMC.run force_refresh old_hash new_hash).wroteInputs
        = (force_refresh || (some new_hash != old_hash))
    ∧ (CosmoMC.run force_refresh old_hash new_hash).submittedJob
        = (force_refresh || (some new_hash != old_hash))
    ∧ (CosmoMC.run force_refresh old_hash new_hash).savedHash
        = (if force_refresh || (some new_hash != old_hash)
            then some new_hash else old_hash)
    ∧ (CosmoMC.run force_refresh old_hash new_hash).ret = true
    ∧ (CreateCov.run true old_hash new_hash).submittedJob = true
    ∧ (CosmoMC.run true old_hash new_hash).submittedJob = true := by
  cases hcond : (force_refresh || (some new_hash != old_hash)) <;>
    simp [CreateCov.run, CosmoMC.run, hcond]

/-- C9: with the Merger done file and primary output both absent and a
log line holding ERROR or ABORT, `Merger._check_completion` removes the
stored hash and returns `FINISHED_FAILURE`; a later `_run` then finds no
stored hash, treats the task as stale, and regenerates. -/
theorem c9_failure_wipes_hash (logLines : List String)
    (storedHash : Option String) (new_hash : String)
    (h : logLines.any lineFatal = true) :
    (Merger.check_completion false false true logLines storedHash).ret
        = CheckRet.finFailure
    ∧ (Merger.check_completion false false true logLines storedHash).hashAfter
        = none
    ∧ (Merger.run false
        (Merger.check_completion false false true logLines storedHash).hashAfter
        new_hash).wiped = true
    ∧ (Merger.run false
        (Merger.check_completion false false true logLines storedHash).hashAfter
        new_hash).submittedJob = true := by
  simp [Merger.check_completion, Merger.run, h]

/-- Witness for `c9_failure_wipes_hash` at a concrete fatal log. -/
theorem c9_failure_wipes_hash_witness :
    (["FATAL ERROR detected"].any lineFatal = true)
    ∧ (Merger.check_completion false false true ["FATAL ERROR detected"]
        (some "oldhash")).hashAfter = none :=
  ⟨by decide,
    (c9_failure_wipes_hash ["FATAL ERROR detected"] (some "oldhash") "newhash"
      (by decide)).2.1⟩

/-- C5 (code bug): in `Manager.execute` the completion sweep tests
`t.check_completion` - the bound method object, never a call - so the
condition is always truthy and every running task is moved to the done
list unconditionally.  Concretely, with task 0 and task 1 where task 1
depends on task 0: cycle one submits task 0 and ends with an empty done
list; cycle two moves task 0 to the done list even though its external
job never reached a terminal state (its `jobDone` ground truth is false
and no completion check ever ran), and then submits task 1 in the same
cycle.  The scheduler thus runs a dependent while its dependency is not
terminal, violating the ordering guarantee of spec sections 4.5 and 8. -/
theorem c5_dependency_order_code_bug :
    ((executeCycle 0 10 (executeCycle 0 10
        ⟨[⟨0, [], false⟩, ⟨1, [0], false⟩], [], [], []⟩)).submitted
      = [⟨0, [], false⟩, ⟨1, [0], false⟩])
    ∧ ((executeCycle 0 10
        ⟨[⟨0, [], false⟩, ⟨1, [0], false⟩], [], [], []⟩).done_tasks = [])
    ∧ ((executeCycle 0 10 (executeCycle 0 10
        ⟨[⟨0, [], false⟩, ⟨1, [0], false⟩], [], [], []⟩)).done_tasks
      = [⟨0, [], false⟩])
    ∧ (⟨0, [], false⟩ : PTask).jobDone = false := by
  decide

/-- C6 (amended): within one poll cycle the scheduler submits at most
one task: when the externally counted job number is below the ceiling it
submits exactly the first ready task when one exists, and it never
submits when the count is at or above the ceiling.  Further ready tasks
wait for later cycles - there is no inner submission loop. -/
theorem c6_single_submission_amended (num_running max_jobs : Nat) (s : SchedState) :
    (max_jobs ≤ num_running →
      (executeCycle num_running max_jobs s).submitted = s.submitted)
    ∧ (executeCycle num_running max_jobs s).submitted.length
        ≤ s.submitted.length + 1
    ∧ (num_running < max_jobs →
        (∃ t ∈ s.tasks,
          canRun t (checkPhase s.running_tasks s.done_tasks).2 = true) →
        ∃ t, (executeCycle num_running max_jobs s).submitted
          = s.submitted ++ [t]) := by
  refine ⟨?_, ?_, ?_⟩
  · intro hmn
    unfold executeCycle
    rw [if_neg (by omega)]
  · unfold executeCycle
    dsimp only
    split
    · split
      · split
        · simp
        · simp
      · simp
    · simp
  · intro hnm hex
    unfold executeCycle
    dsimp only
    rw [if_pos hnm]
    obtain ⟨i, hi⟩ :=
      taskIndexFrom_isSome (checkPhase s.running_tasks s.done_tasks).2 s.tasks 0 hex
    have hidx : get_task_index_to_run s.tasks
        (checkPhase s.running_tasks s.done_tasks).2 = some i := hi
    obtain ⟨⟨t, ht, _⟩, _⟩ := get_task_index_to_run_spec _ _ _ hidx
    simp only [hidx, ht]
    exact ⟨t, rfl⟩

/-- Witness for `c6_single_submission_amended` at a concrete input. -/
theorem c6_single_submission_witness :
    ∃ t, (executeCycle 0 10 ⟨[⟨1, [], false⟩], [], [], []⟩).submitted
      = [] ++ [t] :=
  (c6_single_submission_amended 0 10 ⟨[⟨1, [], false⟩], [], [], []⟩).2.2
    (by omega) ⟨⟨1, [], false⟩, by decide, by decide⟩

/-- C6 counterexample: with two dependency-free tasks, zero outstanding
jobs and a ceiling of ten, one cycle submits only the first task; the
second is ready and the ceiling is far from reached, yet it is not
submitted in the same cycle, refuting the claimed inner loop. -/
theorem c6_single_submission_counterexample :
    ((executeCycle 0 10 ⟨[⟨0, [], false⟩, ⟨1, [], false⟩], [], [], []⟩).submitted
      = [⟨0, [], false⟩])
    ∧ ((executeCycle 0 10 ⟨[⟨0, [], false⟩, ⟨1, [], false⟩], [], [], []⟩).tasks
      = [⟨1, [], false⟩])
    ∧ canRun ⟨1, [], false⟩
        (executeCycle 0 10 ⟨[⟨0, [], false⟩, ⟨1, [], false⟩], [], [], []⟩).done_tasks
      = true
    ∧ (executeCycle 0 10
        ⟨[⟨0, [], false⟩, ⟨1, [], false⟩], [], [], []⟩).running_tasks.length < 10 := by
  decide

/-- C8: when `get_task_index_to_run` selects an index, the task there is
ready (all dependencies in the done list) and every strictly earlier
position in declaration order holds a task that is not ready - the
earliest ready task wins; as a pure function of its arguments the
selection is moreover deterministic across repeated runs. -/
theorem c8_declaration_order_selection (tasks_to_run done_tasks : List PTask)
    (i : Nat) (h : get_task_index_to_run tasks_to_run done_tasks = some i) :
    (∃ t, tasks_to_run[i]? = some t ∧ canRun t done_tasks = true)
    ∧ ∀ j u, j < i → tasks_to_run[j]? = some u → canRun u done_tasks = false :=
  get_task_index_to_run_spec tasks_to_run done_tasks i h

/-- Witness for `c8_declaration_order_selection` at a concrete input:
the first task waits on an absent dependency, so index 1 is selected. -/
theorem c8_declaration_order_selection_witness :
    (∃ t, ([⟨0, [7], false⟩, ⟨1, [], false⟩] : List PTask)[1]? = some t
        ∧ canRun t [] = true)
    ∧ ∀ j u, j < 1 →
        ([⟨0, [7], false⟩, ⟨1, [], false⟩] : List PTask)[j]? = some u →
        canRun u [] = false :=
  c8_declaration_order_selection [⟨0, [7], false⟩, ⟨1, [], false⟩] [] 1 (by decide)

/-- C10: whenever `SuperNNovaClassifier._check_completion` returns
`FINISHED_SUCCESS`, the output mapping holds the keys model_filename and
predictions_filename, bound to `model.pt` and `predictions.csv` inside
the output directory of the task. -/
theorem c10_success_publishes_artifacts (done1 done2 : Option String)
    (predExists modelExists relocOk : Bool) (output_dir : String)
    (output : List (String × String)) (squeue : List String)
    (job_base_name : String) (out2 : List (String × String))
    (h : SuperNNova.check_completion done1 done2 predExists modelExists relocOk
        output_dir output squeue job_base_name
      = Except.ok (CheckRet.finSuccess, out2)) :
    mapGet out2 "model_filename" = some (output_dir ++ "/model.pt")
    ∧ mapGet out2 "predictions_filename" = some (output_dir ++ "/predictions.csv")
    ∧ output_dir.data <+: (output_dir ++ "/model.pt").data
    ∧ output_dir.data <+: (output_dir ++ "/predictions.csv").data := by
  unfold SuperNNova.check_completion at h
  split at h
  · split at h
    · simp at h
    · split at h
      · simp at h
      · split at h
        · simp at h
        · simp only [Except.ok.injEq, Prod.mk.injEq, true_and] at h
          subst h
          refine ⟨?_, ?_, ?_, ?_⟩
          · rw [mapGet_mapSet_ne _ _ _ _ (by decide), mapGet_mapSet_self]
          · rw [mapGet_mapSet_self]
          · have hd : (output_dir ++ "/model.pt").data
                = output_dir.data ++ ("/model.pt").data := rfl
            rw [hd]
            exact List.prefix_append _ _
          · have hd : (output_dir ++ "/predictions.csv").data
                = output_dir.data ++ ("/predictions.csv").data := rfl
            rw [hd]
            exact List.prefix_append _ _
  · simp only [Except.ok.injEq, Prod.mk.injEq] at h
    exact absurd h.1 (check_for_job_ne_finSuccess squeue job_base_name)

/-- Witness for `c10_success_publishes_artifacts` at a concrete input
where the model and predictions still need relocating. -/
theorem c10_success_publishes_artifacts_witness :
    mapGet [("model_filename", "/out/model.pt"),
        ("predictions_filename", "/out/predictions.csv")] "model_filename"
      = some ("/out" ++ "/model.pt")
    ∧ mapGet [("model_filename", "/out/model.pt"),
        ("predictions_filename", "/out/predictions.csv")] "predictions_filename"
      = some ("/out" ++ "/predictions.csv")
    ∧ "/out".data <+: ("/out" ++ "/model.pt").data
    ∧ "/out".data <+: ("/out" ++ "/predictions.csv").data :=
  c10_success_publishes_artifacts (some "SUCCESS") none false false true "/out"
    [] [] "jobbase"
    [("model_filename", "/out/model.pt"),
      ("predictions_filename", "/out/predictions.csv")]
    rfl

/-- C7: with several exact-name matches, `resolve_classifier` collapses
them to a single task when all matches share one probability column
name, and otherwise fails with an ambiguity error carrying the distinct
probability-column choices; with no exact match it falls back to
matching the probability column name - resolving on a unique fallback
match, and failing only after that fallback (empty choices on zero
matches, a multiple-prob-column failure on several). -/
theorem c7_classifier_resolution (cts : List PClassifier) (nm : String) :
    (1 < (exactMatches cts nm).length →
      ((∀ c ∈ exactMatches cts nm, ∀ d ∈ exactMatches cts nm,
          c.prob_column_name = d.prob_column_name) →
        ∃ c, resolve_classifier cts nm = ResolveResult.ok c
          ∧ c ∈ exactMatches cts nm)
      ∧ (∀ c d, c ∈ exactMatches cts nm → d ∈ exactMatches cts nm →
          c.prob_column_name ≠ d.prob_column_name →
          ∃ choices, resolve_classifier cts nm = ResolveResult.ambiguous choices
            ∧ choices.Nodup ∧ 2 ≤ choices.length
            ∧ ∀ p, p ∈ choices ↔ ∃ e ∈ exactMatches cts nm,
                e.prob_column_name = p))
    ∧ ((exactMatches cts nm).length = 0 →
      ((∀ c, probMatches cts nm = [c] →
          resolve_classifier cts nm = ResolveResult.ok c)
       ∧ (probMatches cts nm = [] →
          resolve_classifier cts nm = ResolveResult.noMatch [])
       ∧ (1 < (probMatches cts nm).length →
          resolve_classifier cts nm
            = ResolveResult.multiProbMatches (probMatches cts nm).length))) := by
  constructor
  · intro h1
    constructor
    · intro hall
      obtain ⟨c0, rest, hm⟩ : ∃ c0 rest, exactMatches cts nm = c0 :: rest := by
        cases he : exactMatches cts nm with
        | nil => rw [he] at h1; simp at h1
        | cons a b => exact ⟨a, b, rfl⟩
      have hdedup : ((exactMatches cts nm).map
          (fun c => c.prob_column_name)).dedup = [c0.prob_column_name] := by
        apply dedup_all_eq
        · rw [hm]; simp
        · intro x hx
          obtain ⟨c, hc, hcx⟩ := List.mem_map.mp hx
          rw [← hcx]
          exact hall c hc c0 (hm ▸ List.mem_cons_self c0 rest)
      refine ⟨c0, ?_, hm ▸ List.mem_cons_self c0 rest⟩
      unfold resolve_classifier
      rw [if_neg (by simp only [beq_iff_eq]; omega)]
      rw [if_pos h1]
      rw [if_pos (by rw [hdedup]; rfl)]
      rw [hm]
    · intro c d hc hd hne
      have hcm : c.prob_column_name ∈ ((exactMatches cts nm).map
          (fun e => e.prob_column_name)).dedup :=
        List.mem_dedup.mpr (List.mem_map.mpr ⟨c, hc, rfl⟩)
      have hdm : d.prob_column_name ∈ ((exactMatches cts nm).map
          (fun e => e.prob_column_name)).dedup :=
        List.mem_dedup.mpr (List.mem_map.mpr ⟨d, hd, rfl⟩)
      have h2 : 2 ≤ ((exactMatches cts nm).map
          (fun e => e.prob_column_name)).dedup.length :=
        two_le_length_of_mem_ne hcm hdm hne
      refine ⟨((exactMatches cts nm).map (fun e => e.prob_column_name)).dedup,
        ?_, List.nodup_dedup _, h2, ?_⟩
      · unfold resolve_classifier
        rw [if_neg (by simp only [beq_iff_eq]; omega)]
        rw [if_pos h1]
        rw [if_neg (by simp only [beq_iff_eq]; omega)]
      · intro p
        rw [List.mem_dedup, List.mem_map]
  · intro h0
    have he : exactMatches cts nm = [] := List.length_eq_zero.mp h0
    refine ⟨?_, ?_, ?_⟩
    · intro c hfb
      unfold resolve_classifier
      rw [if_pos (by rw [he]; rfl)]
      rw [if_neg (by rw [hfb]; simp)]
      rw [if_neg (by rw [hfb]; simp)]
      rw [hfb]
    · intro hfb
      unfold resolve_classifier
      rw [if_pos (by rw [he]; rfl)]
      rw [if_pos (by rw [hfb]; rfl)]
      rw [hfb]
      rfl
    · intro hlt
      unfold resolve_classifier
      rw [if_pos (by rw [he]; rfl)]
      rw [if_neg (by simp only [beq_iff_eq]; omega)]
      rw [if_pos hlt]

/-- Witness for `c7_classifier_resolution` at a concrete input: two
classifiers share the exact name but publish distinct probability
columns, so resolution is ambiguous with both choices listed. -/
theorem c7_classifier_resolution_witness :
    ∃ choices,
      resolve_classifier [⟨"SNN", "PROB_SNN_A"⟩, ⟨"SNN", "PROB_SNN_B"⟩] "SNN"
        = ResolveResult.ambiguous choices
      ∧ choices.Nodup ∧ 2 ≤ choices.length
      ∧ ∀ p, p ∈ choices ↔ ∃ e ∈ exactMatches
          [⟨"SNN", "PROB_SNN_A"⟩, ⟨"SNN", "PROB_SNN_B"⟩] "SNN",
          e.prob_column_name = p :=
  (c7_classifier_resolution [⟨"SNN", "PROB_SNN_A"⟩, ⟨"SNN", "PROB_SNN_B"⟩]
      "SNN").1 (by decide) |>.2
    ⟨"SNN", "PROB_SNN_A"⟩ ⟨"SNN", "PROB_SNN_B"⟩ (by decide) (by decide)
    (by decide)
